import Mathlib

/-!
# FakeBORIS: the serial protocol worker `SerialComm` and the controller slot of `MainWindow`

A shallow embedding of `src/FakeBORIS GUI/FakeBORIS/serialcomm.cpp` and of the slot
`MainWindow::receiveResponse` of `src/FakeBORIS GUI/FakeBORIS/mainwindow.cpp`.

* The data members of `SerialComm` (together with the `isRunning()` flag of the
  underlying `QThread`) form the record `SerialComm`.
* The three slots `handleStart`, `handleStop` and `receiveRequest` are pure
  functions returning the new record and the list of actions they performed
  (`start()` of the thread, `wakeOne()` of the wait condition).
* `run()` holds the mutex from its first line to its return, except while it is
  blocked in `waitCondition.wait(&mutex)`.  The slots lock the same mutex, so
  they can only be handled while the worker is blocked there.  The behaviour of
  the serial port and the slots handled during each blocking wait are therefore
  given to `run` as a script, and `run` returns the trace of actions it performs.
* `QDataStream` is used with its default byte order, which Qt documents to be
  `QDataStream::BigEndian` (most significant byte first) on every platform.
* `MainWindow::receiveResponse` works on the checked states of the sorted button list and
  on the style sheets of the sorted indicator lists.  Where the C++ code has no defined
  behaviour (an index out of range, a shift of an `int` by 32 or more) it has no result.
-/

namespace FakeBORIS

/-! ## Constants -/

/-- Opcode asking the device to set its outputs (serialcomm.cpp line 8). -/
def CMD_WRITE_OUTPUT : Nat := 0xba

/-- Opcode asking the device to report its inputs (serialcomm.cpp line 13). -/
def CMD_READ_INPUT : Nat := 0xb9

/-- Time limit in milliseconds of the write and first-byte waits (serialcomm.cpp line 18). -/
def TIME_LIMIT_MS : Nat := 100

/-! ## Data model -/

/-- Data members of `SerialComm` (serialcomm.h) and the `isRunning()` state of its `QThread`.
`request` is a `quint16`. -/
structure SerialComm where
  portName : String
  baudRate : Int
  quit : Bool
  request : Nat
  running : Bool
deriving DecidableEq, Repr

/-- Observable actions: operations on the serial port, the two signals `response` and `error`,
the blocking wait of the worker, and the two thread actions of the slots. -/
inductive Event where
  | openPort (name : String) (baud : Int)
  | write (bytes : List Nat)
  | waitForBytesWritten (ms : Nat)
  | waitForReadyRead (ms : Nat)
  | readAll
  | response (input : Nat)
  | error (s : String)
  | wait
  | wakeOne
  | start
deriving DecidableEq, Repr

/-- The constructor `SerialComm::SerialComm` (lines 23-27): `quit(false)`, `request(0x00)`.
`portName` is a default-constructed (empty) string; `baudRate` is left uninitialised by the
constructor, so its initial value is a parameter. -/
def SerialComm.init (baud0 : Int) : SerialComm :=
  { portName := "", baudRate := baud0, quit := false, request := 0x00, running := false }

/-! ## QDataStream (big-endian, the Qt default) -/

/-- The bytes appended by `stream << v` for a `quint8`. -/
def streamU8 (v : Nat) : List Nat := [v % 256]

/-- The bytes appended by `stream << v` for a `quint16`: most significant byte first. -/
def streamU16 (v : Nat) : List Nat := [v / 256 % 256, v % 256]

/-- The value read by `stream >> input` for a `quint16` from the start of a byte array:
most significant byte first; reading past the end yields 0. -/
def readU16 : List Nat → Nat
  | b0 :: b1 :: _ => b0 % 256 * 256 + b1 % 256
  | _ => 0

/-- The frame built at lines 64-67:
`requestStream << CMD_WRITE_OUTPUT << request << CMD_READ_INPUT`. -/
def requestData (request : Nat) : List Nat :=
  streamU8 CMD_WRITE_OUTPUT ++ streamU16 request ++ streamU8 CMD_READ_INPUT

/-! ## The slots -/

/-- The slot `SerialComm::handleStart` (lines 123-135).  `toInt` stands for `QString::toInt`
followed by the cast to `QSerialPort::BaudRate`. -/
def handleStart (toInt : String → Int) (name baud : String) (s : SerialComm) :
    SerialComm × List Event :=
  if !s.running then
    ({ s with portName := name, baudRate := toInt baud, quit := false, running := true },
      [Event.start])
  else (s, [])

/-- The slot `SerialComm::handleStop` (lines 140-149). -/
def handleStop (s : SerialComm) : SerialComm × List Event :=
  if s.running then ({ s with quit := true }, [Event.wakeOne]) else (s, [])

/-- The slot `SerialComm::receiveRequest` (lines 154-162). -/
def receiveRequest (output : Nat) (s : SerialComm) : SerialComm × List Event :=
  let s1 := { s with request := output }
  if s1.running then (s1, [Event.wakeOne]) else (s1, [])

/-- A slot invocation queued by the controller. -/
inductive Call where
  | start (name baud : String)
  | stop
  | request (output : Nat)
deriving DecidableEq, Repr

/-- Handle one slot invocation. -/
def Call.handle (toInt : String → Int) : Call → SerialComm → SerialComm × List Event
  | Call.start name baud, s => handleStart toInt name baud s
  | Call.stop, s => handleStop s
  | Call.request output, s => receiveRequest output s

/-- Handle a sequence of slot invocations in order, collecting their actions. -/
def handleAll (toInt : String → Int) : List Call → SerialComm → SerialComm × List Event
  | [], s => (s, [])
  | c :: cs, s =>
    let r1 := c.handle toInt s
    let r2 := handleAll toInt cs r1.1
    (r2.1, r1.2 ++ r2.2)

/-! ## The worker -/

/-- What the environment does during one iteration of the loop of `run`:
the results of `waitForBytesWritten(TIME_LIMIT_MS)` and `waitForReadyRead(TIME_LIMIT_MS)`,
the bytes returned by the first `readAll()`, the bytes returned by `readAll()` in each later
10 ms window in which `waitForReadyRead(10)` succeeded (the window after the last one times
out), and the slots handled while the worker is blocked in `waitCondition.wait(&mutex)`. -/
structure Cycle where
  written : Bool
  ready : Bool
  first : List Nat
  more : List (List Nat)
  calls : List Call
deriving DecidableEq, Repr

/-- What the environment does during one execution of `run`: the result of `open`, the value
of `serialPort.error()` and the behaviour during the successive loop iterations. -/
structure Script where
  opened : Bool
  errorCode : Nat
  cycles : List Cycle
deriving DecidableEq, Repr

/-- The `return` statement or loop exit through which `run` ended. -/
inductive Exit where
  | openFailed
  | writeTimeout
  | readTimeout
  | sizeMismatch
  | stopped
deriving DecidableEq, Repr

/-- How one loop iteration ends: `run` returns, the loop goes to its next test of `quit`,
or the worker stays blocked in `waitCondition.wait` because nothing woke it. -/
inductive Step where
  | exit (e : Exit)
  | next (s : SerialComm)
  | blocked (s : SerialComm)
deriving DecidableEq, Repr

/-- Result of an execution of `run` against a script: the trace of actions, the way it ended
(`none` when the script ends with the worker still inside the loop) and the data members. -/
structure Result where
  trace : List Event
  exit : Option Exit
  state : SerialComm
deriving DecidableEq, Repr

/-- Lines 78-79: `while(serialPort.waitForReadyRead(10)) responseData += serialPort.readAll();`
started with the accumulated `responseData`. -/
def drain : List (List Nat) → List Nat → List Nat × List Event
  | [], responseData => (responseData, [Event.waitForReadyRead 10])
  | chunk :: rest, responseData =>
    let r := drain rest (responseData ++ chunk)
    (r.1, Event.waitForReadyRead 10 :: Event.readAll :: r.2)

/-- The message of line 51; `%1` and `%2` are substituted by the port name and the error code. -/
def openMessage (portName : String) (code : Nat) : String :=
  "Can't open " ++ portName ++ ", error code " ++ Nat.repr code

/-- The message of line 103. -/
def readTimeoutMessage : String := "Wait read response timeout."

/-- The message of line 111. -/
def writeTimeoutMessage : String := "Wait write request timeout."

/-- The message of lines 94-95; `%1` is substituted by `QString::number(responseData.size())`. -/
def sizeMessage (size : Nat) : String :=
  "The received data exceeds the expected size. Its size is " ++ Nat.repr size ++ " bytes."

/-- One iteration of the loop body of `run` (lines 62-116). -/
def cycle (toInt : String → Int) (s : SerialComm) (c : Cycle) : List Event × Step :=
  let t0 := [Event.write (requestData s.request), Event.waitForBytesWritten TIME_LIMIT_MS]
  if c.written then
    if c.ready then
      let r := drain c.more c.first
      let t1 := t0 ++ [Event.waitForReadyRead TIME_LIMIT_MS, Event.readAll] ++ r.2
      if r.1.length = 2 then
        let h := handleAll toInt c.calls s
        (t1 ++ [Event.response (readU16 r.1), Event.wait],
          if Event.wakeOne ∈ h.2 then Step.next h.1 else Step.blocked h.1)
      else
        (t1 ++ [Event.error (sizeMessage r.1.length)], Step.exit Exit.sizeMismatch)
    else
      (t0 ++ [Event.waitForReadyRead TIME_LIMIT_MS, Event.error readTimeoutMessage],
        Step.exit Exit.readTimeout)
  else
    (t0 ++ [Event.error writeTimeoutMessage], Step.exit Exit.writeTimeout)

/-- The loop `while(!quit)` of `run` (lines 61-117). -/
def loop (toInt : String → Int) : List Cycle → SerialComm → Result
  | [], s =>
    if s.quit then { trace := [], exit := some Exit.stopped, state := s }
    else { trace := [], exit := none, state := s }
  | c :: rest, s =>
    if s.quit then { trace := [], exit := some Exit.stopped, state := s }
    else
      match cycle toInt s c with
      | (t, Step.exit e) => { trace := t, exit := some e, state := s }
      | (t, Step.blocked s1) => { trace := t, exit := none, state := s1 }
      | (t, Step.next s1) =>
        let r := loop toInt rest s1
        { r with trace := t ++ r.trace }

/-- The thread body `SerialComm::run` (lines 41-118). -/
def run (toInt : String → Int) (s : SerialComm) (script : Script) : Result :=
  let t := [Event.openPort s.portName s.baudRate]
  if !script.opened then
    { trace := t ++ [Event.error (openMessage s.portName script.errorCode)],
      exit := some Exit.openFailed, state := s }
  else
    let r := loop toInt script.cycles s
    { r with trace := t ++ r.trace }

/-! ## Observations on traces -/

/-- The signals (`response` and `error`) of a trace, in order. -/
def signals : List Event → List Event
  | [] => []
  | Event.response v :: t => Event.response v :: signals t
  | Event.error m :: t => Event.error m :: signals t
  | _ :: t => signals t

/-- The error messages emitted in a trace, in order. -/
def errors : List Event → List String
  | [] => []
  | Event.error m :: t => m :: errors t
  | _ :: t => errors t

/-- The byte sequences written to the port in a trace, in order. -/
def writes : List Event → List (List Nat)
  | [] => []
  | Event.write b :: t => b :: writes t
  | _ :: t => writes t

/-- A conversion of the baud-rate text used in the concrete scenarios. -/
def toInt0 (b : String) : Int := b.toInt?.getD 0

/-- The worker data at the start of the end-to-end scenario: pending request `0x0001`. -/
def scenarioState : SerialComm :=
  { portName := "COM7", baudRate := 9600, quit := false, request := 0x0001, running := true }

/-- The environment of the end-to-end scenario: the port opens, the write completes, the device
returns the two bytes `0x00, 0x02`, and `handleStop` is handled while the worker waits. -/
def scenarioScript : Script :=
  { opened := true, errorCode := 0,
    cycles := [{ written := true, ready := true, first := [0x00, 0x02], more := [],
                 calls := [Call.stop] }] }

/-! ## Conditions on the environment of one iteration -/

/-- Whether a slot invocation is a `receiveRequest`. -/
def Call.isRequest : Call → Bool
  | Call.request _ => true
  | _ => false

/-- The environment lets the iteration succeed: the write completes in time, a first byte
arrives in time, and the accumulated reply has exactly two bytes. -/
def Cycle.succeeds (c : Cycle) : Bool :=
  c.written && c.ready && decide ((c.first ++ c.more.flatten).length = 2)

/-- The environment lets the iteration succeed and then asks for another one: during the
wait at least one `receiveRequest` and no `handleStop` is handled. -/
def Cycle.continues (c : Cycle) : Bool :=
  c.succeeds && c.calls.any Call.isRequest && !(c.calls.contains Call.stop)

/-- A session whose first iteration succeeds and is followed by a request, and whose second
iteration gets no first byte in time. -/
def readTimeoutScript : Script :=
  { opened := true, errorCode := 0,
    cycles := [{ written := true, ready := true, first := [0x00, 0x02], more := [],
                 calls := [Call.request 0x0003] },
               { written := true, ready := false, first := [], more := [], calls := [] }] }

/-! ## The main window (`mainwindow.cpp`) -/

/-- Style sheet of an indicator that is on (mainwindow.cpp line 12). -/
def TURNED_ON_STYLE : String := "QLabel \x7b background-color : green; \x7d"

/-- Style sheet of an indicator that is off (mainwindow.cpp line 18). -/
def TURNED_OFF_STYLE : String := "QLabel \x7b background-color : grey; \x7d"

/-- The value of `EXIT_FAILURE`. -/
def EXIT_FAILURE : Nat := 1

/-- The part of `MainWindow` that `receiveResponse` uses: for each button of the sorted list
`outputButtons` its `isChecked()` state, and for each label of the sorted lists
`outputIndicators` and `inputIndicators` its style sheet. -/
structure MainWindow where
  outputButtons : List Bool
  outputIndicators : List String
  inputIndicators : List String
deriving DecidableEq, Repr

/-- What `receiveResponse` sends out: the call `QApplication::exit(code)`, which only asks the
event loop to end and returns, and the signal `request(output)`. -/
inductive Emit where
  | appExit (code : Nat)
  | request (output : Nat)
deriving DecidableEq, Repr

/-- The loop of lines 113-114 from index `i` on, over the remaining input indicators: the new
style sheets.  `1 << i` is a shift of a 32-bit `int`, undefined for `i` of 32 or more: there
the model has no result. -/
def inputLoop (input : Nat) : Nat → List String → Option (List String)
  | _, [] => some []
  | i, _ :: rest =>
    if i < 32 then
      match inputLoop input (i + 1) rest with
      | some styles =>
        some ((if input &&& (1 <<< i) ≠ 0 then TURNED_ON_STYLE else TURNED_OFF_STYLE) :: styles)
      | none => none
    else none

/-- The loop of lines 119-122 from index `i` on, over the remaining buttons and the output
indicators from the same index on: the final `output` and the new style sheets.
`output |= isChecked() << i` is computed in `int` and stored back into the `quint16`.
The model has no result where `outputIndicators[i]` is out of range or the shift count is 32
or more. -/
def outputLoop : Nat → Nat → List Bool → List String → Option (Nat × List String)
  | _, output, [], indicators => some (output, indicators)
  | _, _, _ :: _, [] => none
  | i, output, checked :: buttons, _ :: indicators =>
    if i < 32 then
      match outputLoop (i + 1) ((output ||| (checked.toNat <<< i)) % 65536) buttons indicators with
      | some r =>
        some (r.1, (if checked then TURNED_ON_STYLE else TURNED_OFF_STYLE) :: r.2)
      | none => none
    else none

/-- The slot `MainWindow::receiveResponse` (lines 103-126).  After `QApplication::exit` the
function goes on. -/
def MainWindow.receiveResponse (input : Nat) (w : MainWindow) : Option (MainWindow × List Emit) :=
  let e0 := if w.outputButtons.length ≠ w.outputIndicators.length
    then [Emit.appExit EXIT_FAILURE] else []
  match inputLoop input 0 w.inputIndicators with
  | none => none
  | some ins =>
    match outputLoop 0 0 w.outputButtons w.outputIndicators with
    | none => none
    | some r =>
      some ({ w with outputIndicators := r.2, inputIndicators := ins },
        e0 ++ [Emit.request r.1])

/-- The masks of the `request` signals among what was sent out, in order. -/
def requests : List Emit → List Nat
  | [] => []
  | Emit.request output :: t => output :: requests t
  | _ :: t => requests t

/-- A window with three output buttons (the first and the third checked), three output
indicators and two input indicators. -/
def sampleWindow : MainWindow :=
  { outputButtons := [true, false, true],
    outputIndicators := [TURNED_OFF_STYLE, TURNED_OFF_STYLE, TURNED_OFF_STYLE],
    inputIndicators := [TURNED_OFF_STYLE, TURNED_OFF_STYLE] }

/-! ## Basic lemmas -/

theorem signals_append (a b : List Event) : signals (a ++ b) = signals a ++ signals b := by
  induction a with
  | nil => rfl
  | cons e t ih => cases e <;> simp [signals, ih]

theorem errors_append (a b : List Event) : errors (a ++ b) = errors a ++ errors b := by
  induction a with
  | nil => rfl
  | cons e t ih => cases e <;> simp [errors, ih]

theorem writes_append (a b : List Event) : writes (a ++ b) = writes a ++ writes b := by
  induction a with
  | nil => rfl
  | cons e t ih => cases e <;> simp [writes, ih]

theorem drain_data (more : List (List Nat)) (acc : List Nat) :
    (drain more acc).1 = acc ++ more.flatten := by
  induction more generalizing acc with
  | nil => simp [drain]
  | cons chunk rest ih => simp [drain, ih]

theorem drain_signals (more : List (List Nat)) (acc : List Nat) :
    signals (drain more acc).2 = [] := by
  induction more generalizing acc with
  | nil => simp [drain, signals]
  | cons chunk rest ih => simp [drain, signals, ih]

theorem drain_errors (more : List (List Nat)) (acc : List Nat) :
    errors (drain more acc).2 = [] := by
  induction more generalizing acc with
  | nil => simp [drain, errors]
  | cons chunk rest ih => simp [drain, errors, ih]

theorem drain_writes (more : List (List Nat)) (acc : List Nat) :
    writes (drain more acc).2 = [] := by
  induction more generalizing acc with
  | nil => simp [drain, writes]
  | cons chunk rest ih => simp [drain, writes, ih]

theorem drain_no_response (more : List (List Nat)) (acc : List Nat) (v : Nat) :
    Event.response v ∉ (drain more acc).2 := by
  induction more generalizing acc with
  | nil => simp [drain]
  | cons chunk rest ih => simp [drain, ih]

/-- The trace and the step of an iteration whose write completes, whose first byte arrives and
whose accumulated reply has two bytes. -/
theorem cycle_ok (toInt : String → Int) (s : SerialComm) (c : Cycle)
    (hw : c.written = true) (hr : c.ready = true) (hn : (c.first ++ c.more.flatten).length = 2) :
    cycle toInt s c =
      ([Event.write (requestData s.request), Event.waitForBytesWritten TIME_LIMIT_MS,
          Event.waitForReadyRead TIME_LIMIT_MS, Event.readAll] ++ (drain c.more c.first).2 ++
        [Event.response (readU16 (c.first ++ c.more.flatten)), Event.wait],
       if Event.wakeOne ∈ (handleAll toInt c.calls s).2
       then Step.next (handleAll toInt c.calls s).1
       else Step.blocked (handleAll toInt c.calls s).1) := by
  have hn2 : c.first.length + (List.map List.length c.more).sum = 2 := by simpa using hn
  simp [cycle, hw, hr, drain_data, hn2]

/-- The trace and the step of an iteration whose accumulated reply has not two bytes. -/
theorem cycle_size (toInt : String → Int) (s : SerialComm) (c : Cycle)
    (hw : c.written = true) (hr : c.ready = true) (hn : (c.first ++ c.more.flatten).length ≠ 2) :
    cycle toInt s c =
      ([Event.write (requestData s.request), Event.waitForBytesWritten TIME_LIMIT_MS,
          Event.waitForReadyRead TIME_LIMIT_MS, Event.readAll] ++ (drain c.more c.first).2 ++
        [Event.error (sizeMessage (c.first ++ c.more.flatten).length)],
       Step.exit Exit.sizeMismatch) := by
  have hn2 : ¬ c.first.length + (List.map List.length c.more).sum = 2 := by simpa using hn
  simp [cycle, hw, hr, drain_data, hn2]

/-- The trace and the step of an iteration in which no first byte arrives in time. -/
theorem cycle_read_timeout (toInt : String → Int) (s : SerialComm) (c : Cycle)
    (hw : c.written = true) (hr : c.ready = false) :
    cycle toInt s c =
      ([Event.write (requestData s.request), Event.waitForBytesWritten TIME_LIMIT_MS,
        Event.waitForReadyRead TIME_LIMIT_MS, Event.error readTimeoutMessage],
       Step.exit Exit.readTimeout) := by
  simp [cycle, hw, hr]

/-- The trace and the step of an iteration whose write does not complete in time. -/
theorem cycle_write_timeout (toInt : String → Int) (s : SerialComm) (c : Cycle)
    (hw : c.written = false) :
    cycle toInt s c =
      ([Event.write (requestData s.request), Event.waitForBytesWritten TIME_LIMIT_MS,
        Event.error writeTimeoutMessage],
       Step.exit Exit.writeTimeout) := by
  simp [cycle, hw]

/-- While `quit` is clear the loop performs the next iteration first. -/
theorem loop_cons_trace (toInt : String → Int) (s : SerialComm) (c : Cycle) (rest : List Cycle)
    (hq : s.quit = false) :
    ∃ post, (loop toInt (c :: rest) s).trace = (cycle toInt s c).1 ++ post := by
  rcases h : cycle toInt s c with ⟨t, st⟩
  cases st with
  | exit e => exact ⟨[], by simp [loop, hq, h]⟩
  | blocked s1 => exact ⟨[], by simp [loop, hq, h]⟩
  | next s1 => exact ⟨(loop toInt rest s1).trace, by simp [loop, hq, h]⟩

/-- An iteration that ends in `return` ends the loop with exactly its own trace. -/
theorem loop_cons_exit (toInt : String → Int) (s : SerialComm) (c : Cycle) (rest : List Cycle)
    (hq : s.quit = false) (e : Exit) (he : (cycle toInt s c).2 = Step.exit e) :
    loop toInt (c :: rest) s = { trace := (cycle toInt s c).1, exit := some e, state := s } := by
  rcases h : cycle toInt s c with ⟨t, st⟩
  rw [h] at he
  simp only at he
  subst he
  simp [loop, hq, h]

/-- The loop unfolds to the next iteration followed by the rest of the loop. -/
theorem loop_cons_next (toInt : String → Int) (s s1 : SerialComm) (c : Cycle)
    (rest : List Cycle) (hq : s.quit = false) (he : (cycle toInt s c).2 = Step.next s1) :
    loop toInt (c :: rest) s =
      { trace := (cycle toInt s c).1 ++ (loop toInt rest s1).trace,
        exit := (loop toInt rest s1).exit, state := (loop toInt rest s1).state } := by
  rcases h : cycle toInt s c with ⟨t, st⟩
  rw [h] at he
  simp only at he
  subst he
  simp [loop, hq, h]

/-- An iteration that stays blocked leaves the loop unfinished with exactly its own trace. -/
theorem loop_cons_blocked (toInt : String → Int) (s s1 : SerialComm) (c : Cycle)
    (rest : List Cycle) (hq : s.quit = false) (he : (cycle toInt s c).2 = Step.blocked s1) :
    loop toInt (c :: rest) s = { trace := (cycle toInt s c).1, exit := none, state := s1 } := by
  rcases h : cycle toInt s c with ⟨t, st⟩
  rw [h] at he
  simp only at he
  subst he
  simp [loop, hq, h]

/-- With `quit` set the loop is left at once. -/
theorem loop_quit (toInt : String → Int) (cs : List Cycle) (s : SerialComm)
    (hq : s.quit = true) :
    loop toInt cs s = { trace := [], exit := some Exit.stopped, state := s } := by
  cases cs <;> simp [loop, hq]

/-- An iteration either returns after emitting one error as its last action, or emits no error
and does not return. -/
theorem cycle_errors (toInt : String → Int) (s : SerialComm) (c : Cycle) :
    (∃ e pre msg, e ≠ Exit.stopped ∧ (cycle toInt s c).2 = Step.exit e ∧
        (cycle toInt s c).1 = pre ++ [Event.error msg] ∧ errors pre = []) ∨
    (errors (cycle toInt s c).1 = [] ∧
      ∃ s1, (cycle toInt s c).2 = Step.next s1 ∨ (cycle toInt s c).2 = Step.blocked s1) := by
  by_cases hw : c.written = true
  · by_cases hr : c.ready = true
    · by_cases hn : (c.first ++ c.more.flatten).length = 2
      · right
        rw [cycle_ok toInt s c hw hr hn]
        refine ⟨by simp [errors, errors_append, drain_errors], (handleAll toInt c.calls s).1, ?_⟩
        by_cases hk : Event.wakeOne ∈ (handleAll toInt c.calls s).2 <;> simp [hk]
      · left
        rw [cycle_size toInt s c hw hr hn]
        exact ⟨Exit.sizeMismatch, _, _, by decide, rfl, rfl,
          by simp [errors, errors_append, drain_errors]⟩
    · left
      rw [cycle_read_timeout toInt s c hw (by simpa using hr)]
      exact ⟨Exit.readTimeout, [Event.write (requestData s.request),
        Event.waitForBytesWritten TIME_LIMIT_MS, Event.waitForReadyRead TIME_LIMIT_MS], _,
        by decide, rfl, rfl, by simp [errors]⟩
  · left
    rw [cycle_write_timeout toInt s c (by simpa using hw)]
    exact ⟨Exit.writeTimeout, [Event.write (requestData s.request),
      Event.waitForBytesWritten TIME_LIMIT_MS], _, by decide, rfl, rfl, by simp [errors]⟩

/-- The loop ends through an error return exactly when its trace ends with its only error;
otherwise its trace has no error. -/
theorem loop_errors (toInt : String → Int) (cs : List Cycle) (s : SerialComm) :
    (∀ e, (loop toInt cs s).exit = some e → e ≠ Exit.stopped →
        ∃ pre msg, (loop toInt cs s).trace = pre ++ [Event.error msg] ∧ errors pre = []) ∧
    ((loop toInt cs s).exit = some Exit.stopped ∨ (loop toInt cs s).exit = none →
        errors (loop toInt cs s).trace = []) := by
  induction cs generalizing s with
  | nil =>
    by_cases hq : s.quit = true
    · simp [loop, hq, errors]
    · simp [loop, hq, errors]
  | cons c rest ih =>
    by_cases hq : s.quit = true
    · rw [loop_quit toInt _ s hq]
      simp [errors]
    · have hq2 : s.quit = false := by simpa using hq
      rcases cycle_errors toInt s c with ⟨e, pre, msg, hne, hst, htr, hpre⟩ | ⟨herr, s1, hst | hst⟩
      · rw [loop_cons_exit toInt s c rest hq2 e hst]
        refine ⟨fun e2 _ _ => ⟨pre, msg, htr, hpre⟩, ?_⟩
        intro h
        rcases h with h | h
        · exact absurd (Option.some.inj h) hne
        · exact absurd h (by simp)
      · rw [loop_cons_next toInt s s1 c rest hq2 hst]
        obtain ⟨ih1, ih2⟩ := ih s1
        refine ⟨?_, ?_⟩
        · intro e he hne
          obtain ⟨pre, msg, htr, hpre⟩ := ih1 e he hne
          refine ⟨(cycle toInt s c).1 ++ pre, msg, ?_, ?_⟩
          · simp only [htr, List.append_assoc]
          · simp [errors_append, herr, hpre]
        · intro h
          simp only [errors_append, herr, List.nil_append]
          exact ih2 h
      · rw [loop_cons_blocked toInt s s1 c rest hq2 hst]
        simp [herr]

/-- In a list that ends with its only error, nothing follows an error. -/
theorem error_is_last (pre : List Event) (msg : String) (hpre : errors pre = [])
    (p2 : List Event) (m2 : String) (post : List Event)
    (h : pre ++ [Event.error msg] = p2 ++ Event.error m2 :: post) : post = [] := by
  have h2 := congrArg errors h
  simp only [errors_append, hpre, errors, List.nil_append] at h2
  rcases List.append_eq_append_iff.mp h with ⟨a, ha, hb⟩ | ⟨b, ha, hb⟩
  · cases a with
    | nil =>
      have hb2 : msg = m2 ∧ post = [] := by simpa using hb
      exact hb2.2
    | cons x a2 =>
      have := congrArg List.length hb
      simp at this
  · cases b with
    | nil =>
      have hb2 : m2 = msg ∧ post = [] := by simpa using hb
      exact hb2.2
    | cons x b2 =>
      simp only [List.cons_append, List.cons.injEq] at hb
      obtain ⟨hx, _⟩ := hb
      subst hx
      rw [ha] at hpre
      simp [errors_append, errors] at hpre

/-- The same for the whole thread body: an error return ends the trace with its only error;
a stop, or a script that ends inside the loop, leaves the trace without error. -/
theorem run_errors (toInt : String → Int) (s : SerialComm) (script : Script) :
    (∀ e, (run toInt s script).exit = some e → e ≠ Exit.stopped →
        ∃ pre msg, (run toInt s script).trace = pre ++ [Event.error msg] ∧ errors pre = []) ∧
    ((run toInt s script).exit = some Exit.stopped ∨ (run toInt s script).exit = none →
        errors (run toInt s script).trace = []) := by
  by_cases ho : script.opened = true
  · obtain ⟨h1, h2⟩ := loop_errors toInt script.cycles s
    have htr : (run toInt s script).trace =
        Event.openPort s.portName s.baudRate :: (loop toInt script.cycles s).trace := by
      simp [run, ho]
    have hex : (run toInt s script).exit = (loop toInt script.cycles s).exit := by
      simp [run, ho]
    rw [htr, hex]
    refine ⟨?_, ?_⟩
    · intro e he hne
      obtain ⟨pre, msg, hp, hpre⟩ := h1 e he hne
      exact ⟨Event.openPort s.portName s.baudRate :: pre, msg, by simp [hp],
        by simp [errors, hpre]⟩
    · intro h
      simp [errors, h2 h]
  · have ho2 : script.opened = false := by simpa using ho
    refine ⟨?_, ?_⟩
    · intro e _ _
      exact ⟨[Event.openPort s.portName s.baudRate], openMessage s.portName script.errorCode,
        by simp [run, ho2], by simp [errors]⟩
    · intro h
      simp [run, ho2] at h

/-- Every iteration writes exactly one frame, built from the pending request. -/
theorem cycle_writes (toInt : String → Int) (s : SerialComm) (c : Cycle) :
    writes (cycle toInt s c).1 = [requestData s.request] ∧
    (cycle toInt s c).1.head? = some (Event.write (requestData s.request)) := by
  by_cases hw : c.written = true
  · by_cases hr : c.ready = true
    · by_cases hn : (c.first ++ c.more.flatten).length = 2
      · rw [cycle_ok toInt s c hw hr hn]
        simp [writes, writes_append, drain_writes]
      · rw [cycle_size toInt s c hw hr hn]
        simp [writes, writes_append, drain_writes]
    · rw [cycle_read_timeout toInt s c hw (by simpa using hr)]
      simp [writes]
  · rw [cycle_write_timeout toInt s c (by simpa using hw)]
    simp [writes]

/-- An iteration goes on to the next test of `quit` only if a handled slot woke the worker. -/
theorem cycle_next_woken (toInt : String → Int) (s s1 : SerialComm) (c : Cycle)
    (h : (cycle toInt s c).2 = Step.next s1) :
    Event.wakeOne ∈ (handleAll toInt c.calls s).2 ∧ s1 = (handleAll toInt c.calls s).1 := by
  by_cases hw : c.written = true
  · by_cases hr : c.ready = true
    · by_cases hn : (c.first ++ c.more.flatten).length = 2
      · rw [cycle_ok toInt s c hw hr hn] at h
        by_cases hk : Event.wakeOne ∈ (handleAll toInt c.calls s).2
        · simp only [hk, if_true, Step.next.injEq] at h
          exact ⟨hk, h.symm⟩
        · simp [hk] at h
      · rw [cycle_size toInt s c hw hr hn] at h
        simp at h
    · rw [cycle_read_timeout toInt s c hw (by simpa using hr)] at h
      simp at h
  · rw [cycle_write_timeout toInt s c (by simpa using hw)] at h
    simp at h

/-- Handling two sequences of slots one after the other. -/
theorem handleAll_append (toInt : String → Int) (xs ys : List Call) (s : SerialComm) :
    handleAll toInt (xs ++ ys) s =
      ((handleAll toInt ys (handleAll toInt xs s).1).1,
        (handleAll toInt xs s).2 ++ (handleAll toInt ys (handleAll toInt xs s).1).2) := by
  induction xs generalizing s with
  | nil => simp [handleAll]
  | cons x xs ih => simp [handleAll, ih]

/-- While the thread runs, slots other than `handleStop` keep `running` set and `quit` as it
is. -/
theorem handleAll_running (toInt : String → Int) (cs : List Call) (s : SerialComm)
    (hrun : s.running = true) (hns : Call.stop ∉ cs) :
    (handleAll toInt cs s).1.running = true ∧ (handleAll toInt cs s).1.quit = s.quit := by
  induction cs generalizing s with
  | nil => simp [handleAll, hrun]
  | cons x xs ih =>
    have hx : Call.stop ∉ xs := fun h => hns (List.mem_cons_of_mem _ h)
    cases x with
    | start name baud =>
      have h1 : Call.handle toInt (Call.start name baud) s = (s, []) := by
        simp [Call.handle, handleStart, hrun]
      simp only [handleAll, h1]
      exact ih s hrun hx
    | stop => exact absurd (List.mem_cons_self _ _) hns
    | request output =>
      have h1 : Call.handle toInt (Call.request output) s =
          ({ s with request := output }, [Event.wakeOne]) := by
        simp [Call.handle, receiveRequest, hrun]
      simp only [handleAll, h1]
      exact ih { s with request := output } hrun hx

/-- An iteration emits a response only if its write completed, its first byte arrived and the
accumulated reply has two bytes. -/
theorem cycle_response (toInt : String → Int) (s : SerialComm) (c : Cycle) (v : Nat)
    (h : Event.response v ∈ (cycle toInt s c).1) :
    c.written = true ∧ c.ready = true ∧ (c.first ++ c.more.flatten).length = 2 := by
  by_cases hw : c.written = true
  · by_cases hr : c.ready = true
    · by_cases hn : (c.first ++ c.more.flatten).length = 2
      · exact ⟨hw, hr, hn⟩
      · rw [cycle_size toInt s c hw hr hn] at h
        simp [drain_no_response] at h
    · rw [cycle_read_timeout toInt s c hw (by simpa using hr)] at h
      simp at h
  · rw [cycle_write_timeout toInt s c (by simpa using hw)] at h
    simp at h

/-- When the port opens, `quit` is clear and the execution reaches the loop body, the first
frame written carries the pending request. -/
theorem run_first_write (toInt : String → Int) (x : SerialComm) (script : Script) (c : Cycle)
    (rest : List Cycle) (hq : x.quit = false) (ho : script.opened = true)
    (hc : script.cycles = c :: rest) :
    (writes (run toInt x script).trace).head? = some (requestData x.request) := by
  obtain ⟨post, hpost⟩ := loop_cons_trace toInt x c rest hq
  have htr : (run toInt x script).trace =
      Event.openPort x.portName x.baudRate :: ((cycle toInt x c).1 ++ post) := by
    simp [run, ho, hc, hpost]
  rw [htr]
  simp [writes, writes_append, (cycle_writes toInt x c).1]

/-- While the thread runs, no slot clears `running`. -/
theorem handleAll_keeps_running (toInt : String → Int) (cs : List Call) (s : SerialComm)
    (hrun : s.running = true) : (handleAll toInt cs s).1.running = true := by
  induction cs generalizing s with
  | nil => simpa [handleAll] using hrun
  | cons x xs ih =>
    simp only [handleAll]
    apply ih
    cases x <;> simp [Call.handle, handleStart, handleStop, receiveRequest, hrun]

/-- While the thread runs, no slot clears a set `quit`. -/
theorem handleAll_keeps_quit (toInt : String → Int) (cs : List Call) (s : SerialComm)
    (hrun : s.running = true) (hq : s.quit = true) : (handleAll toInt cs s).1.quit = true := by
  induction cs generalizing s with
  | nil => simpa [handleAll] using hq
  | cons x xs ih =>
    simp only [handleAll]
    apply ih
    · cases x <;> simp [Call.handle, handleStart, handleStop, receiveRequest, hrun]
    · cases x <;> simp [Call.handle, handleStart, handleStop, receiveRequest, hrun, hq]

/-- While the thread runs, a handled `handleStop` leaves `quit` set whatever is handled before
and after it, and it wakes the worker. -/
theorem handleAll_stop (toInt : String → Int) (before after : List Call) (s : SerialComm)
    (hrun : s.running = true) :
    (handleAll toInt (before ++ Call.stop :: after) s).1.quit = true ∧
    Event.wakeOne ∈ (handleAll toInt (before ++ Call.stop :: after) s).2 := by
  have hb := handleAll_keeps_running toInt before s hrun
  rw [handleAll_append]
  have hstop : Call.handle toInt Call.stop (handleAll toInt before s).1 =
      ({ (handleAll toInt before s).1 with quit := true }, [Event.wakeOne]) := by
    simp [Call.handle, handleStop, hb]
  constructor
  · simp only [handleAll, hstop]
    exact handleAll_keeps_quit toInt after _ hb rfl
  · simp only [handleAll, hstop]
    simp

/-- Whether the input loop has a result does not depend on the input mask. -/
theorem inputLoop_indep (input input2 : Nat) (l : List String) (i : Nat) (r : List String)
    (h : inputLoop input i l = some r) : ∃ r2, inputLoop input2 i l = some r2 := by
  induction l generalizing i r with
  | nil => exact ⟨[], rfl⟩
  | cons x rest ih =>
    by_cases hi : i < 32
    · simp only [inputLoop, hi, if_true] at h ⊢
      rcases hrec : inputLoop input (i + 1) rest with _ | styles
      · rw [hrec] at h
        simp at h
      · obtain ⟨r2, hr2⟩ := ih (i + 1) styles hrec
        rw [hr2]
        exact ⟨_, rfl⟩
    · simp [inputLoop, hi] at h

/-- The input loop has a result when every shift count stays below 32. -/
theorem inputLoop_some (input : Nat) (l : List String) (i : Nat) (h : i + l.length ≤ 32) :
    ∃ r, inputLoop input i l = some r := by
  induction l generalizing i with
  | nil => exact ⟨[], rfl⟩
  | cons x rest ih =>
    have hi : i < 32 := by simp only [List.length_cons] at h; omega
    obtain ⟨r, hr⟩ := ih (i + 1) (by simp only [List.length_cons] at h; omega)
    simp only [inputLoop, hi, if_true, hr]
    exact ⟨_, rfl⟩

/-- The output loop has a result when there is an indicator for every button and every shift
count stays below 32. -/
theorem outputLoop_some (bs : List Bool) (inds : List String) (i out : Nat)
    (hlen : bs.length ≤ inds.length) (h : i + bs.length ≤ 32) :
    ∃ r, outputLoop i out bs inds = some r := by
  induction bs generalizing i out inds with
  | nil => exact ⟨_, rfl⟩
  | cons b rest ih =>
    cases inds with
    | nil => simp at hlen
    | cons x inds =>
      have hi : i < 32 := by simp only [List.length_cons] at h; omega
      obtain ⟨r, hr⟩ := ih inds (i + 1) ((out ||| (b.toNat <<< i)) % 65536)
        (by simpa using hlen) (by simp only [List.length_cons] at h; omega)
      simp only [outputLoop, hi, if_true, hr]
      exact ⟨_, rfl⟩

/-- The result of the output loop over at most 16 bit positions: the bits below the start index
are those of the initial `output`, the bits from the start index on are the checked states
of the buttons. -/
theorem outputLoop_bits (bs : List Bool) (inds : List String) (i out : Nat)
    (r : Nat × List String) (h : outputLoop i out bs inds = some r)
    (hn : i + bs.length ≤ 16) (hout : out < 2 ^ i) :
    r.1 < 2 ^ (i + bs.length) ∧
    ∀ j, r.1.testBit j = if j < i then out.testBit j else bs.getD (j - i) false := by
  induction bs generalizing i out inds r with
  | nil =>
    simp only [outputLoop, Option.some.injEq] at h
    subst h
    refine ⟨by simpa using hout, ?_⟩
    intro j
    by_cases hj : j < i
    · simp [hj]
    · have hle : 2 ^ i ≤ 2 ^ j := Nat.pow_le_pow_right (by decide) (by omega)
      simp [hj, Nat.testBit_lt_two_pow (Nat.lt_of_lt_of_le hout hle)]
  | cons b rest ih =>
    cases inds with
    | nil => simp [outputLoop] at h
    | cons x inds =>
      simp only [List.length_cons] at hn
      have hi : i < 32 := by omega
      have hb : b.toNat <<< i < 2 ^ (i + 1) := by
        rw [Nat.shiftLeft_eq, Nat.pow_succ]
        have : b.toNat ≤ 1 := Bool.toNat_le b
        have hpos : 0 < 2 ^ i := Nat.pos_pow_of_pos i (by decide)
        nlinarith
      have ho1 : out < 2 ^ (i + 1) :=
        Nat.lt_of_lt_of_le hout (Nat.pow_le_pow_right (by decide) (by omega))
      have hor : out ||| (b.toNat <<< i) < 2 ^ (i + 1) := Nat.or_lt_two_pow ho1 hb
      have h16 : 2 ^ (i + 1) ≤ 65536 := by
        have : 2 ^ (i + 1) ≤ 2 ^ 16 := Nat.pow_le_pow_right (by decide) (by omega)
        simpa using this
      have hmod : (out ||| (b.toNat <<< i)) % 65536 = out ||| (b.toNat <<< i) :=
        Nat.mod_eq_of_lt (Nat.lt_of_lt_of_le hor h16)
      simp only [outputLoop, hi, if_true, hmod] at h
      rcases hrec : outputLoop (i + 1) (out ||| (b.toNat <<< i)) rest inds with _ | r1
      · rw [hrec] at h
        simp at h
      · rw [hrec] at h
        simp only [Option.some.injEq] at h
        subst h
        obtain ⟨hlt, hbits⟩ := ih inds (i + 1) _ r1 hrec (by omega) hor
        refine ⟨by simpa [Nat.add_assoc, Nat.add_comm 1] using hlt, ?_⟩
        intro j
        rw [hbits j]
        by_cases hj : j < i
        · have hj1 : j < i + 1 := by omega
          simp [hj, hj1, Nat.testBit_or, Nat.testBit_shiftLeft]
        · by_cases hji : j = i
          · subst hji
            have hself : out.testBit j = false := Nat.testBit_lt_two_pow hout
            cases b <;> simp [Nat.testBit_or, Nat.testBit_shiftLeft, hself]
          · have hj1 : ¬ j < i + 1 := by omega
            have hsub : j - i = (j - (i + 1)) + 1 := by omega
            simp [hj, hj1, hsub]

/-- The shape of a result of `receiveResponse`: both loops had a result, and what is sent out
is the exit request (when the sizes differ) followed by the `request` of the computed mask. -/
theorem receiveResponse_some (input : Nat) (w w2 : MainWindow) (es : List Emit)
    (h : MainWindow.receiveResponse input w = some (w2, es)) :
    ∃ ins r, inputLoop input 0 w.inputIndicators = some ins ∧
      outputLoop 0 0 w.outputButtons w.outputIndicators = some r ∧
      es = (if w.outputButtons.length ≠ w.outputIndicators.length
        then [Emit.appExit EXIT_FAILURE] else []) ++ [Emit.request r.1] := by
  unfold MainWindow.receiveResponse at h
  rcases hin : inputLoop input 0 w.inputIndicators with _ | ins
  · simp [hin] at h
  · rcases hout : outputLoop 0 0 w.outputButtons w.outputIndicators with _ | r
    · simp [hin, hout] at h
    · simp only [hin, hout, Option.some.injEq, Prod.mk.injEq] at h
      exact ⟨ins, r, rfl, rfl, h.2.symm⟩

/-- What `Cycle.succeeds` says. -/
theorem succeeds_iff (c : Cycle) :
    c.succeeds = true ↔
      c.written = true ∧ c.ready = true ∧ (c.first ++ c.more.flatten).length = 2 := by
  simp [Cycle.succeeds, and_assoc]

/-- While the thread runs, a handled `receiveRequest` wakes the worker. -/
theorem handleAll_request_wakes (toInt : String → Int) (cs : List Call) (s : SerialComm)
    (hrun : s.running = true) (hreq : cs.any Call.isRequest = true) :
    Event.wakeOne ∈ (handleAll toInt cs s).2 := by
  induction cs generalizing s with
  | nil => simp at hreq
  | cons x xs ih =>
    simp only [handleAll, List.mem_append]
    cases x with
    | request output =>
      left
      simp [Call.handle, receiveRequest, hrun]
    | start name baud =>
      right
      have h1 : Call.handle toInt (Call.start name baud) s = (s, []) := by
        simp [Call.handle, handleStart, hrun]
      rw [h1]
      exact ih s hrun (by simpa [Call.isRequest] using hreq)
    | stop =>
      left
      simp [Call.handle, handleStop, hrun]

/-- After iterations that all succeed and are each followed by a request and no stop, the
loop goes on with the rest of the script, the thread running and `quit` clear, having emitted
no error so far. -/
theorem loop_continues (toInt : String → Int) (done : List Cycle) (s : SerialComm)
    (hrun : s.running = true) (hq : s.quit = false)
    (hdone : ∀ d ∈ done, d.continues = true) :
    ∃ (s1 : SerialComm) (t : List Event), s1.running = true ∧ s1.quit = false ∧
      errors t = [] ∧
      ∀ tail : List Cycle, loop toInt (done ++ tail) s =
        { trace := t ++ (loop toInt tail s1).trace, exit := (loop toInt tail s1).exit,
          state := (loop toInt tail s1).state } := by
  induction done generalizing s with
  | nil => exact ⟨s, [], hrun, hq, rfl, fun tail => by simp⟩
  | cons d ds ih =>
    have hd := hdone d (List.mem_cons_self _ _)
    simp only [Cycle.continues, Bool.and_eq_true, Bool.not_eq_true', List.contains_eq_any_beq,
      List.any_eq_false, beq_iff_eq] at hd
    obtain ⟨⟨hsucc, hreq⟩, hstop⟩ := hd
    obtain ⟨hw, hr, hn⟩ := (succeeds_iff d).mp hsucc
    have hns : Call.stop ∉ d.calls := fun hmem => hstop Call.stop hmem rfl
    obtain ⟨hrun1, hq1⟩ := handleAll_running toInt d.calls s hrun hns
    rw [hq] at hq1
    have hwake := handleAll_request_wakes toInt d.calls s hrun hreq
    have hst : (cycle toInt s d).2 = Step.next (handleAll toInt d.calls s).1 := by
      rw [cycle_ok toInt s d hw hr hn]
      simp [hwake]
    obtain ⟨s1, t, h1, h2, h3, h4⟩ := ih (handleAll toInt d.calls s).1 hrun1 hq1
      (fun x hx => hdone x (List.mem_cons_of_mem _ hx))
    refine ⟨s1, (cycle toInt s d).1 ++ t, h1, h2, ?_, ?_⟩
    · rw [errors_append, h3, cycle_ok toInt s d hw hr hn]
      simp [errors, errors_append, drain_errors]
    · intro tail
      rw [List.cons_append, loop_cons_next toInt s _ d (ds ++ tail) hq hst, h4 tail]
      simp

/-- Every exit of the loop other than the stop has its cause in the script: after iterations
that succeeded, one whose write timed out, whose first byte did not arrive, or whose reply
had not two bytes. -/
theorem loop_exit_cause (toInt : String → Int) (cs : List Cycle) (s : SerialComm) (e : Exit)
    (h : (loop toInt cs s).exit = some e) :
    e = Exit.stopped ∨
    ∃ done c rest, cs = done ++ c :: rest ∧ (∀ d ∈ done, d.succeeds = true) ∧
      ((e = Exit.writeTimeout ∧ c.written = false) ∨
       (e = Exit.readTimeout ∧ c.written = true ∧ c.ready = false) ∨
       (e = Exit.sizeMismatch ∧ c.written = true ∧ c.ready = true ∧
          (c.first ++ c.more.flatten).length ≠ 2)) := by
  induction cs generalizing s with
  | nil =>
    by_cases hq : s.quit = true
    · simp [loop, hq] at h
      exact Or.inl h.symm
    · simp [loop, hq] at h
  | cons c rest ih =>
    by_cases hq : s.quit = true
    · rw [loop_quit toInt _ s hq] at h
      simp at h
      exact Or.inl h.symm
    · have hq2 : s.quit = false := by simpa using hq
      by_cases hw : c.written = true
      · by_cases hr : c.ready = true
        · by_cases hn : (c.first ++ c.more.flatten).length = 2
          · rcases hst : (cycle toInt s c).2 with e1 | s1 | s1
            · rw [cycle_ok toInt s c hw hr hn] at hst
              by_cases hk : Event.wakeOne ∈ (handleAll toInt c.calls s).2 <;> simp [hk] at hst
            · rw [loop_cons_next toInt s s1 c rest hq2 hst] at h
              rcases ih s1 h with hs | ⟨done, c2, rest2, hcs, hdone, hcause⟩
              · exact Or.inl hs
              · refine Or.inr ⟨c :: done, c2, rest2, by simp [hcs], ?_, hcause⟩
                intro d hd
                rcases List.mem_cons.mp hd with hd | hd
                · rw [hd]
                  exact (succeeds_iff c).mpr ⟨hw, hr, hn⟩
                · exact hdone d hd
            · rw [loop_cons_blocked toInt s s1 c rest hq2 hst] at h
              simp at h
          · have hst : (cycle toInt s c).2 = Step.exit Exit.sizeMismatch := by
              rw [cycle_size toInt s c hw hr hn]
            rw [loop_cons_exit toInt s c rest hq2 _ hst] at h
            simp only [Option.some.injEq] at h
            exact Or.inr ⟨[], c, rest, rfl, by simp, Or.inr (Or.inr ⟨h.symm, hw, hr, hn⟩)⟩
        · have hr2 : c.ready = false := by simpa using hr
          have hst : (cycle toInt s c).2 = Step.exit Exit.readTimeout := by
            rw [cycle_read_timeout toInt s c hw hr2]
          rw [loop_cons_exit toInt s c rest hq2 _ hst] at h
          simp only [Option.some.injEq] at h
          exact Or.inr ⟨[], c, rest, rfl, by simp, Or.inr (Or.inl ⟨h.symm, hw, hr2⟩)⟩
      · have hw2 : c.written = false := by simpa using hw
        have hst : (cycle toInt s c).2 = Step.exit Exit.writeTimeout := by
          rw [cycle_write_timeout toInt s c hw2]
        rw [loop_cons_exit toInt s c rest hq2 _ hst] at h
        simp only [Option.some.injEq] at h
        exact Or.inr ⟨[], c, rest, rfl, by simp, Or.inl ⟨h.symm, hw2⟩⟩

/-! ## The claims -/

/-- C1 (as stated, refuted): in the end-to-end scenario (port opened, pending request `0x0001`,
write completed, device reply `0x00, 0x02`, then stop) `run` does not emit `response(0x0200)`;
the only signal of the session is `response(0x0002)`, and the session ends by the stop. -/
theorem C1_scenario_does_not_emit_0x0200 :
    Event.response 0x0200 ∉ (run toInt0 scenarioState scenarioScript).trace ∧
    signals (run toInt0 scenarioState scenarioScript).trace = [Event.response 0x0002] ∧
    (run toInt0 scenarioState scenarioScript).exit = some Exit.stopped := by
  decide

/-- C1 (amended): in a session where the port opens, the pending request is `0x0001`, the
write completes and the device returns exactly the two bytes `0x00, 0x02` (in any chunking),
the first frame written is `0xBA, 0x00, 0x01, 0xB9` and the first signal emitted by `run` is
`response(0x0002)`: the first received byte is the high byte. -/
theorem C1_run_emits_response_0x0002 (toInt : String → Int) (s : SerialComm) (script : Script)
    (c : Cycle) (rest : List Cycle)
    (hq : s.quit = false) (hreq : s.request = 0x0001)
    (ho : script.opened = true) (hc : script.cycles = c :: rest)
    (hw : c.written = true) (hr : c.ready = true)
    (hd : c.first ++ c.more.flatten = [0x00, 0x02]) :
    (signals (run toInt s script).trace).head? = some (Event.response 0x0002) ∧
    (writes (run toInt s script).trace).head? = some [0xba, 0x00, 0x01, 0xb9] := by
  have hn : (c.first ++ c.more.flatten).length = 2 := by rw [hd]; rfl
  obtain ⟨post, hpost⟩ := loop_cons_trace toInt s c rest hq
  have htr : (run toInt s script).trace =
      Event.openPort s.portName s.baudRate :: ((cycle toInt s c).1 ++ post) := by
    simp [run, ho, hc, hpost]
  rw [htr, cycle_ok toInt s c hw hr hn, hd, hreq]
  constructor
  · simp [signals, signals_append, drain_signals, readU16]
  · simp [writes, writes_append, drain_writes, requestData, streamU8, streamU16,
      CMD_WRITE_OUTPUT, CMD_READ_INPUT]

/-- Witness of C1 (amended) on the end-to-end scenario. -/
theorem C1_run_emits_response_0x0002_witness :
    (signals (run toInt0 scenarioState scenarioScript).trace).head?
        = some (Event.response 0x0002) ∧
    (writes (run toInt0 scenarioState scenarioScript).trace).head?
        = some [0xba, 0x00, 0x01, 0xb9] :=
  C1_run_emits_response_0x0002 toInt0 scenarioState scenarioScript
    { written := true, ready := true, first := [0x00, 0x02], more := [], calls := [Call.stop] }
    [] rfl rfl rfl rfl rfl rfl rfl

/-- C2: for every 16-bit mask `m`, the response decoder applied to the two bytes at positions
1 and 2 of the frame built from `m` yields `m`; and an iteration of `run` in which the device
echoes exactly these two bytes emits `response(m)` as its only signal. -/
theorem C2_mask_round_trip (m : Nat) (hm : m < 65536) :
    readU16 (((requestData m).drop 1).take 2) = m ∧
    ∀ (toInt : String → Int) (s : SerialComm) (c : Cycle),
      c.written = true → c.ready = true →
      c.first ++ c.more.flatten = ((requestData m).drop 1).take 2 →
      signals (cycle toInt s c).1 = [Event.response m] := by
  have hdec : readU16 (((requestData m).drop 1).take 2) = m := by
    simp only [requestData, streamU8, streamU16, readU16, List.singleton_append,
      List.cons_append, List.drop_succ_cons, List.drop_zero, List.take_succ_cons,
      List.take_zero, List.nil_append]
    omega
  refine ⟨hdec, ?_⟩
  intro toInt s c hw hr hd
  have hn : (c.first ++ c.more.flatten).length = 2 := by
    rw [hd]; simp [requestData, streamU8, streamU16]
  rw [cycle_ok toInt s c hw hr hn, hd, hdec]
  simp [signals, signals_append, drain_signals]

/-- Witness of C2 at the mask `0xABCD`, echoed by the device one byte at a time. -/
theorem C2_mask_round_trip_witness :
    (0xABCD : Nat) < 65536 ∧ readU16 (((requestData 0xABCD).drop 1).take 2) = 0xABCD ∧
    signals (cycle toInt0 scenarioState
      { written := true, ready := true, first := [0xAB], more := [[0xCD]], calls := [] }).1
      = [Event.response 0xABCD] :=
  ⟨by decide, (C2_mask_round_trip 0xABCD (by decide)).1,
    (C2_mask_round_trip 0xABCD (by decide)).2 toInt0 scenarioState
      { written := true, ready := true, first := [0xAB], more := [[0xCD]], calls := [] }
      rfl rfl rfl⟩

/-- C3: for every 16-bit pending request `m` the frame has length 4, starts with `0xBA`, ends
with `0xB9`, carries the high byte and then the low byte of `m` in the middle, distinct masks
give distinct frames, and one iteration of `run` writes exactly this frame, first of all. -/
theorem C3_frame_layout (m : Nat) (hm : m < 65536) :
    (requestData m).length = 4 ∧
    (requestData m).head? = some 0xba ∧
    (requestData m).getLast? = some 0xb9 ∧
    requestData m = [CMD_WRITE_OUTPUT, m / 256, m % 256, CMD_READ_INPUT] ∧
    (∀ m2 : Nat, m2 < 65536 → requestData m = requestData m2 → m = m2) ∧
    ∀ (toInt : String → Int) (s : SerialComm) (c : Cycle), s.request = m →
      writes (cycle toInt s c).1 = [requestData m] ∧
      (cycle toInt s c).1.head? = some (Event.write (requestData m)) := by
  have hhi : m / 256 % 256 = m / 256 := Nat.mod_eq_of_lt (by omega)
  refine ⟨by simp [requestData, streamU8, streamU16], by simp [requestData, streamU8,
    streamU16, CMD_WRITE_OUTPUT], by simp [requestData, streamU8, streamU16, CMD_READ_INPUT],
    by simp [requestData, streamU8, streamU16, CMD_WRITE_OUTPUT, CMD_READ_INPUT, hhi], ?_, ?_⟩
  · intro m2 hm2 h
    simp only [requestData, streamU8, streamU16, List.singleton_append, List.cons_append,
      List.nil_append, List.cons.injEq, and_true, true_and] at h
    omega
  · intro toInt s c hs
    subst hs
    exact cycle_writes toInt s c

/-- Witness of C3 at the mask `0x1234`. -/
theorem C3_frame_layout_witness :
    (0x1234 : Nat) < 65536 ∧ requestData 0x1234 = [0xba, 0x12, 0x34, 0xb9] :=
  ⟨by decide, (C3_frame_layout 0x1234 (by decide)).2.2.2.1⟩

/-- C4: in an iteration of `run` whose write completes and whose first byte arrives, let `n`
be the length of the accumulated response (first chunk followed by the chunks of the later
10 ms windows).  If `n` differs from 2, the only signal of the iteration is one error whose
message contains the decimal digits of `n`, the error is the last action, no response is
emitted and the loop ends there through the size-mismatch return.  Conversely a response is
emitted in an iteration only when its write completed, its first byte arrived and its
accumulated response has exactly two bytes. -/
theorem C4_size_mismatch (toInt : String → Int) (s : SerialComm) (c : Cycle)
    (hw : c.written = true) (hr : c.ready = true) :
    ((c.first ++ c.more.flatten).length ≠ 2 →
      signals (cycle toInt s c).1 = [Event.error (sizeMessage (c.first ++ c.more.flatten).length)] ∧
      (cycle toInt s c).1.getLast? =
        some (Event.error (sizeMessage (c.first ++ c.more.flatten).length)) ∧
      (∃ a b : String, sizeMessage (c.first ++ c.more.flatten).length =
        a ++ Nat.repr (c.first ++ c.more.flatten).length ++ b) ∧
      (∀ v, Event.response v ∉ (cycle toInt s c).1) ∧
      (cycle toInt s c).2 = Step.exit Exit.sizeMismatch ∧
      ∀ rest : List Cycle, s.quit = false →
        loop toInt (c :: rest) s =
          { trace := (cycle toInt s c).1, exit := some Exit.sizeMismatch, state := s }) ∧
    (∀ (c2 : Cycle) (v : Nat), Event.response v ∈ (cycle toInt s c2).1 →
      c2.written = true ∧ c2.ready = true ∧ (c2.first ++ c2.more.flatten).length = 2) := by
  have key : (c.first ++ c.more.flatten).length ≠ 2 → ∀ v, Event.response v ∉ (cycle toInt s c).1 := by
    intro hn v
    rw [cycle_size toInt s c hw hr hn]
    simp [drain_no_response]
  refine ⟨?_, ?_⟩
  · intro hn
    have hst : (cycle toInt s c).2 = Step.exit Exit.sizeMismatch := by
      rw [cycle_size toInt s c hw hr hn]
    refine ⟨?_, ?_, ⟨_, _, rfl⟩, key hn, hst, ?_⟩
    · rw [cycle_size toInt s c hw hr hn]
      simp [signals, signals_append, drain_signals]
    · rw [cycle_size toInt s c hw hr hn]
      exact List.getLast?_concat _
    · intro rest hq
      exact loop_cons_exit toInt s c rest hq _ hst
  · intro c2 v hv
    exact cycle_response toInt s c2 v hv

/-- Witness of C4: a reply of three bytes, arriving as one byte and then two, gives the single
error reporting the size 3. -/
theorem C4_size_mismatch_witness :
    signals (cycle toInt0 scenarioState
      { written := true, ready := true, first := [0x01], more := [[0x02, 0x03]],
        calls := [] }).1
      = [Event.error "The received data exceeds the expected size. Its size is 3 bytes."] :=
  ((C4_size_mismatch toInt0 scenarioState
      { written := true, ready := true, first := [0x01], more := [[0x02, 0x03]], calls := [] }
      rfl rfl).1 (by decide)).1

/-- C5: in an iteration of `run` in which `waitForBytesWritten(TIME_LIMIT_MS)` (100 ms) does
not report completion, the actions are exactly: the write of the frame, the wait for the
write, and one error with the write-timeout message.  So one error and no response is
emitted, no read wait and no read is attempted, and the loop ends there through the
write-timeout return. -/
theorem C5_write_timeout (toInt : String → Int) (s : SerialComm) (c : Cycle)
    (hw : c.written = false) :
    cycle toInt s c =
      ([Event.write (requestData s.request), Event.waitForBytesWritten 100,
        Event.error writeTimeoutMessage], Step.exit Exit.writeTimeout) ∧
    signals (cycle toInt s c).1 = [Event.error writeTimeoutMessage] ∧
    (∀ v, Event.response v ∉ (cycle toInt s c).1) ∧
    (∀ ms, Event.waitForReadyRead ms ∉ (cycle toInt s c).1) ∧
    Event.readAll ∉ (cycle toInt s c).1 ∧
    ∀ rest : List Cycle, s.quit = false →
      loop toInt (c :: rest) s =
        { trace := (cycle toInt s c).1, exit := some Exit.writeTimeout, state := s } := by
  have h := cycle_write_timeout toInt s c hw
  refine ⟨h, ?_, ?_, ?_, ?_, ?_⟩
  · rw [h]; simp [signals]
  · rw [h]; simp
  · rw [h]; simp
  · rw [h]; simp
  · intro rest hq
    exact loop_cons_exit toInt s c rest hq _ (by rw [h])

/-- Witness of C5: a session whose first write times out. -/
theorem C5_write_timeout_witness :
    cycle toInt0 scenarioState
      { written := false, ready := true, first := [0x00, 0x02], more := [], calls := [] } =
      ([Event.write [0xba, 0x00, 0x01, 0xb9], Event.waitForBytesWritten 100,
        Event.error "Wait write request timeout."], Step.exit Exit.writeTimeout) :=
  (C5_write_timeout toInt0 scenarioState
    { written := false, ready := true, first := [0x00, 0x02], more := [], calls := [] } rfl).1

/-- C6: for every script (behaviour of the port and slots handled while the worker waits):
an open failure makes `run` emit the open error and nothing else after the open; in an
iteration reached after iterations that each succeeded and were followed by a request and no
stop, a write timeout, a read timeout or a reply of another size than two bytes makes `run`
return with exactly one error in its whole trace, the error of that failure, as its last
action; a stop handled after a successful iteration, or `quit` set before the first one, ends
`run` without any error.  Conversely every error return has such a failure in the script as
its cause, leaves exactly one error in the trace, as last action, and in any execution
nothing at all, in particular no port operation, follows an error. -/
theorem C6_one_terminal_error (toInt : String → Int) (s : SerialComm) (script : Script) :
    (∀ e, (run toInt s script).exit = some e → e ≠ Exit.stopped →
      (errors (run toInt s script).trace).length = 1 ∧
      ∃ msg, (run toInt s script).trace.getLast? = some (Event.error msg)) ∧
    ((run toInt s script).exit = some Exit.stopped → errors (run toInt s script).trace = []) ∧
    (∀ pre msg post, (run toInt s script).trace = pre ++ Event.error msg :: post → post = []) ∧
    (script.opened = false →
      (run toInt s script).exit = some Exit.openFailed ∧
      (run toInt s script).trace = [Event.openPort s.portName s.baudRate,
        Event.error (openMessage s.portName script.errorCode)]) ∧
    (∀ (done : List Cycle) (c : Cycle) (rest : List Cycle),
      s.running = true → s.quit = false → script.opened = true →
      script.cycles = done ++ c :: rest → (∀ d ∈ done, d.continues = true) →
      (c.written = false →
        (run toInt s script).exit = some Exit.writeTimeout ∧
        errors (run toInt s script).trace = [writeTimeoutMessage] ∧
        (run toInt s script).trace.getLast? = some (Event.error writeTimeoutMessage)) ∧
      (c.written = true → c.ready = false →
        (run toInt s script).exit = some Exit.readTimeout ∧
        errors (run toInt s script).trace = [readTimeoutMessage] ∧
        (run toInt s script).trace.getLast? = some (Event.error readTimeoutMessage)) ∧
      (c.written = true → c.ready = true → (c.first ++ c.more.flatten).length ≠ 2 →
        (run toInt s script).exit = some Exit.sizeMismatch ∧
        errors (run toInt s script).trace = [sizeMessage (c.first ++ c.more.flatten).length] ∧
        (run toInt s script).trace.getLast? =
          some (Event.error (sizeMessage (c.first ++ c.more.flatten).length))) ∧
      (c.succeeds = true → Call.stop ∈ c.calls →
        (run toInt s script).exit = some Exit.stopped ∧
        errors (run toInt s script).trace = [])) ∧
    (script.opened = true → s.quit = true →
      (run toInt s script).exit = some Exit.stopped ∧ errors (run toInt s script).trace = []) ∧
    (∀ e, (run toInt s script).exit = some e →
      e = Exit.stopped ∨ (e = Exit.openFailed ∧ script.opened = false) ∨
      (script.opened = true ∧
        ∃ done c rest, script.cycles = done ++ c :: rest ∧ (∀ d ∈ done, d.succeeds = true) ∧
          ((e = Exit.writeTimeout ∧ c.written = false) ∨
           (e = Exit.readTimeout ∧ c.written = true ∧ c.ready = false) ∨
           (e = Exit.sizeMismatch ∧ c.written = true ∧ c.ready = true ∧
              (c.first ++ c.more.flatten).length ≠ 2)))) := by
  obtain ⟨h1, h2⟩ := run_errors toInt s script
  refine ⟨?_, fun h => h2 (Or.inl h), ?_, ?_, ?_, ?_, ?_⟩
  · intro e he hne
    obtain ⟨pre, msg, hp, hpre⟩ := h1 e he hne
    rw [hp]
    exact ⟨by simp [errors_append, hpre, errors], msg, by simp⟩
  · intro p2 m2 post hp
    rcases hex : (run toInt s script).exit with _ | e
    · have h := h2 (Or.inr hex)
      rw [hp] at h
      simp [errors_append, errors] at h
    · by_cases hne : e = Exit.stopped
      · have h := h2 (Or.inl (hne ▸ hex))
        rw [hp] at h
        simp [errors_append, errors] at h
      · obtain ⟨pre, msg, hp1, hpre⟩ := h1 e hex hne
        exact error_is_last pre msg hpre p2 m2 post (hp1 ▸ hp)
  · intro ho
    simp [run, ho]
  · intro done c rest hrun hq ho hc hdone
    obtain ⟨s1, t, hrun1, hq1, hterr, hloop⟩ := loop_continues toInt done s hrun hq hdone
    have htr : (run toInt s script).trace = Event.openPort s.portName s.baudRate ::
        (t ++ (loop toInt (c :: rest) s1).trace) := by
      simp [run, ho, hc, hloop]
    have hex : (run toInt s script).exit = (loop toInt (c :: rest) s1).exit := by
      simp [run, ho, hc, hloop]
    have hfail : ∀ (e : Exit) (front : List Event) (msg : String),
        cycle toInt s1 c = (front ++ [Event.error msg], Step.exit e) → errors front = [] →
        (run toInt s script).exit = some e ∧ errors (run toInt s script).trace = [msg] ∧
        (run toInt s script).trace.getLast? = some (Event.error msg) := by
      intro e front msg hcy hfront
      have hl := loop_cons_exit toInt s1 c rest hq1 e (by rw [hcy])
      rw [hcy] at hl
      rw [htr, hex, hl]
      refine ⟨rfl, by simp [errors, errors_append, hterr, hfront], ?_⟩
      have hshape : Event.openPort s.portName s.baudRate :: (t ++ (front ++ [Event.error msg]))
          = (Event.openPort s.portName s.baudRate :: (t ++ front)) ++ [Event.error msg] := by
        simp
      show (Event.openPort s.portName s.baudRate :: (t ++ (front ++ [Event.error msg]))).getLast?
        = some (Event.error msg)
      rw [hshape]
      exact List.getLast?_concat _
    refine ⟨?_, ?_, ?_, ?_⟩
    · intro hw
      exact hfail Exit.writeTimeout
        [Event.write (requestData s1.request), Event.waitForBytesWritten TIME_LIMIT_MS]
        writeTimeoutMessage (cycle_write_timeout toInt s1 c hw) (by simp [errors])
    · intro hw hr
      exact hfail Exit.readTimeout
        [Event.write (requestData s1.request), Event.waitForBytesWritten TIME_LIMIT_MS,
          Event.waitForReadyRead TIME_LIMIT_MS]
        readTimeoutMessage (cycle_read_timeout toInt s1 c hw hr) (by simp [errors])
    · intro hw hr hn
      exact hfail Exit.sizeMismatch
        ([Event.write (requestData s1.request), Event.waitForBytesWritten TIME_LIMIT_MS,
          Event.waitForReadyRead TIME_LIMIT_MS, Event.readAll] ++ (drain c.more c.first).2)
        (sizeMessage (c.first ++ c.more.flatten).length) (cycle_size toInt s1 c hw hr hn)
        (by simp [errors, errors_append, drain_errors])
    · intro hsucc hstop
      obtain ⟨hw, hr, hn⟩ := (succeeds_iff c).mp hsucc
      obtain ⟨before, after, hcalls⟩ := List.append_of_mem hstop
      obtain ⟨hquit, hwake⟩ := handleAll_stop toInt before after s1 hrun1
      rw [← hcalls] at hquit hwake
      have hst : (cycle toInt s1 c).2 = Step.next (handleAll toInt c.calls s1).1 := by
        rw [cycle_ok toInt s1 c hw hr hn]
        simp [hwake]
      have hl : loop toInt (c :: rest) s1 =
          { trace := (cycle toInt s1 c).1, exit := some Exit.stopped,
            state := (handleAll toInt c.calls s1).1 } := by
        rw [loop_cons_next toInt s1 _ c rest hq1 hst, loop_quit toInt rest _ hquit]
        simp
      rw [htr, hex, hl, cycle_ok toInt s1 c hw hr hn]
      exact ⟨rfl, by simp [errors, errors_append, hterr, drain_errors]⟩
  · intro ho hq
    have hl := loop_quit toInt script.cycles s hq
    simp [run, ho, hl, errors]
  · intro e he
    by_cases ho : script.opened = true
    · have hex : (run toInt s script).exit = (loop toInt script.cycles s).exit := by
        simp [run, ho]
      rw [hex] at he
      rcases loop_exit_cause toInt script.cycles s e he with hs | hcause
      · exact Or.inl hs
      · exact Or.inr (Or.inr ⟨ho, hcause⟩)
    · have ho2 : script.opened = false := by simpa using ho
      have hex : (run toInt s script).exit = some Exit.openFailed := by simp [run, ho2]
      rw [hex] at he
      exact Or.inr (Or.inl ⟨(Option.some.inj he).symm, ho2⟩)

/-- Witness of C6: the first iteration succeeds and is followed by a request, the second gets
no first byte in time; the run returns through the read timeout with that single error, last
of all. -/
theorem C6_one_terminal_error_witness :
    (run toInt0 scenarioState readTimeoutScript).exit = some Exit.readTimeout ∧
    errors (run toInt0 scenarioState readTimeoutScript).trace
      = ["Wait read response timeout."] ∧
    (run toInt0 scenarioState readTimeoutScript).trace.getLast?
      = some (Event.error "Wait read response timeout.") :=
  ((C6_one_terminal_error toInt0 scenarioState readTimeoutScript).2.2.2.2.1
    [{ written := true, ready := true, first := [0x00, 0x02], more := [],
       calls := [Call.request 0x0003] }]
    { written := true, ready := false, first := [], more := [], calls := [] }
    [] rfl rfl rfl rfl (by decide)).2.1 rfl rfl

/-- C7: let `receiveRequest(a)` and then `receiveRequest(b)` be the last slots handled while
the running worker waits after a successful iteration (no stop having been handled).  Then the
pending request is `b`; the frames written are the one of the finished iteration followed by
the frame of `b`; if no further slot is handled, these are the only two frames, so one frame
is written for the two calls; the frame of `b` differs from the frame of `a` when the masks
differ; the whole execution equals the one in which `receiveRequest(a)` was never made; and
when the two calls are handled before the first frame of a session, that frame carries `b`. -/
theorem C7_coalescing (toInt : String → Int) (s : SerialComm) (c c2 : Cycle)
    (rest : List Cycle) (pre : List Call) (a b : Nat)
    (ha : a < 65536) (hb : b < 65536)
    (hrun : s.running = true) (hq : s.quit = false)
    (hw : c.written = true) (hr : c.ready = true)
    (hn : (c.first ++ c.more.flatten).length = 2)
    (hpre : Call.stop ∉ pre) (hcalls : c.calls = pre ++ [Call.request a, Call.request b]) :
    (handleAll toInt c.calls s).1.request = b ∧
    (∃ post, writes (loop toInt (c :: c2 :: rest) s).trace =
      requestData s.request :: requestData b :: post) ∧
    (c2.calls = [] →
      writes (loop toInt (c :: c2 :: rest) s).trace = [requestData s.request, requestData b]) ∧
    (a ≠ b → requestData a ≠ requestData b) ∧
    loop toInt (c :: c2 :: rest) s =
      loop toInt ({ c with calls := pre ++ [Call.request b] } :: c2 :: rest) s ∧
    (∀ (x : SerialComm) (script : Script), x.quit = false → script.opened = true →
      script.cycles = c2 :: rest →
      (writes (run toInt (handleAll toInt [Call.request a, Call.request b] x).1 script).trace).head?
        = some (requestData b)) := by
  obtain ⟨hprun, hpq⟩ := handleAll_running toInt pre s hrun hpre
  rw [hq] at hpq
  have hab : handleAll toInt c.calls s =
      ({ (handleAll toInt pre s).1 with request := b },
        (handleAll toInt pre s).2 ++ [Event.wakeOne, Event.wakeOne]) := by
    rw [hcalls, handleAll_append]
    simp [handleAll, Call.handle, receiveRequest, hprun]
  have hb1 : handleAll toInt (pre ++ [Call.request b]) s =
      ({ (handleAll toInt pre s).1 with request := b },
        (handleAll toInt pre s).2 ++ [Event.wakeOne]) := by
    rw [handleAll_append]
    simp [handleAll, Call.handle, receiveRequest, hprun]
  have hst : (cycle toInt s c).2 =
      Step.next { (handleAll toInt pre s).1 with request := b } := by
    rw [cycle_ok toInt s c hw hr hn, hab]
    simp
  have hloop := loop_cons_next toInt s _ c (c2 :: rest) hq hst
  have hq2 : ({ (handleAll toInt pre s).1 with request := b } : SerialComm).quit = false := hpq
  have hwr := fun x => (cycle_writes toInt x c2).1
  refine ⟨by rw [hab], ?_, ?_, ?_, ?_, ?_⟩
  · obtain ⟨post, hpost⟩ := loop_cons_trace toInt _ c2 rest hq2
    refine ⟨writes post, ?_⟩
    rw [hloop]
    simp only [writes_append, hpost, (cycle_writes toInt s c).1, hwr]
    rfl
  · intro hc2
    rw [hloop]
    simp only [writes_append, (cycle_writes toInt s c).1]
    have hend : (loop toInt (c2 :: rest) { (handleAll toInt pre s).1 with request := b }).trace
        = (cycle toInt { (handleAll toInt pre s).1 with request := b } c2).1 := by
      rcases hs2 : (cycle toInt { (handleAll toInt pre s).1 with request := b } c2).2 with
        e | s1 | s1
      · rw [loop_cons_exit toInt _ c2 rest hq2 e hs2]
      · have hk := (cycle_next_woken toInt _ s1 c2 hs2).1
        rw [hc2] at hk
        simp [handleAll] at hk
      · rw [loop_cons_blocked toInt _ s1 c2 rest hq2 hs2]
    rw [hend, hwr]
    rfl
  · intro hne h
    simp only [requestData, streamU8, streamU16, List.singleton_append, List.cons_append,
      List.nil_append, List.cons.injEq, and_true, true_and] at h
    omega
  · have hcyc : cycle toInt s c = cycle toInt s { c with calls := pre ++ [Call.request b] } := by
      rw [cycle_ok toInt s c hw hr hn,
        cycle_ok toInt s { c with calls := pre ++ [Call.request b] } hw hr hn, hab]
      simp only [hb1]
      simp
    simp only [loop, hcyc]
  · intro x script hxq ho hc
    have hx : (handleAll toInt [Call.request a, Call.request b] x).1 = { x with request := b } := by
      by_cases hxr : x.running = true <;> simp [handleAll, Call.handle, receiveRequest, hxr]
    rw [hx]
    exact run_first_write toInt { x with request := b } script c2 rest hxq ho hc

/-- Witness of C7: after a successful first iteration with pending request `0x0001`, the
requests `0x00F0` and then `0x0F00` are handled while the worker waits; the frames written
are the one of `0x0001` and the one of `0x0F00`. -/
theorem C7_coalescing_witness :
    writes (loop toInt0
      [{ written := true, ready := true, first := [0x00, 0x02], more := [],
         calls := [Call.request 0x00F0, Call.request 0x0F00] },
       { written := true, ready := true, first := [0x00, 0x02], more := [], calls := [] }]
      scenarioState).trace
      = [[0xba, 0x00, 0x01, 0xb9], [0xba, 0x0f, 0x00, 0xb9]] :=
  (C7_coalescing toInt0 scenarioState
    { written := true, ready := true, first := [0x00, 0x02], more := [],
      calls := [Call.request 0x00F0, Call.request 0x0F00] }
    { written := true, ready := true, first := [0x00, 0x02], more := [], calls := [] }
    [] [] 0x00F0 0x0F00 (by decide) (by decide) rfl rfl rfl rfl rfl (by decide) rfl).2.2.1 rfl

/-- C8: while the background thread is running, `handleStart` with any arguments changes no
data member (`portName`, `baudRate`, `quit`, `request`) and performs no action, in particular
it does not start a thread. -/
theorem C8_start_while_running (toInt : String → Int) (name baud : String) (s : SerialComm)
    (hrun : s.running = true) :
    handleStart toInt name baud s = (s, []) ∧
    (handleStart toInt name baud s).1.portName = s.portName ∧
    (handleStart toInt name baud s).1.baudRate = s.baudRate ∧
    (handleStart toInt name baud s).1.quit = s.quit ∧
    (handleStart toInt name baud s).1.request = s.request ∧
    Event.start ∉ (handleStart toInt name baud s).2 := by
  have h : handleStart toInt name baud s = (s, []) := by simp [handleStart, hrun]
  rw [h]
  simp

/-- Witness of C8 on the running worker of the end-to-end scenario. -/
theorem C8_start_while_running_witness :
    handleStart toInt0 "COM3" "115200" scenarioState = (scenarioState, []) :=
  (C8_start_while_running toInt0 "COM3" "115200" scenarioState rfl).1

/-- C9: while the background thread is not running, `handleStop` changes no data member and
performs no action (so no response or error is emitted), and any number of calls in a row
has the same effect as one call. -/
theorem C9_stop_while_idle (toInt : String → Int) (s : SerialComm)
    (hidle : s.running = false) :
    handleStop s = (s, []) ∧
    ∀ k : Nat, handleAll toInt (List.replicate k Call.stop) s = (s, []) ∧
      handleAll toInt (List.replicate k Call.stop) s = handleStop s := by
  have h : handleStop s = (s, []) := by simp [handleStop, hidle]
  have hk : ∀ k : Nat, handleAll toInt (List.replicate k Call.stop) s = (s, []) := by
    intro k
    induction k with
    | zero => rfl
    | succ k ih => simp [List.replicate_succ, handleAll, Call.handle, h, ih]
  exact ⟨h, fun k => ⟨hk k, by rw [hk k, h]⟩⟩

/-- Witness of C9 on a freshly constructed worker, for three calls in a row. -/
theorem C9_stop_while_idle_witness :
    handleAll toInt0 [Call.stop, Call.stop, Call.stop] (SerialComm.init 0)
      = (SerialComm.init 0, []) :=
  ((C9_stop_while_idle toInt0 (SerialComm.init 0) rfl).2 3).1

/-- C10: for every 16-bit mask `m`, `receiveRequest(m)` sets the pending request to `m`
whether or not the thread runs; `handleStart` and `handleStop` never change the pending
request; a session started after `receiveRequest(m)` was handled while idle, whose port
opens, writes the frame of `m` first; and a session started on a freshly constructed worker
writes the frame of mask 0 first. -/
theorem C10_buffered_request (toInt : String → Int) (m : Nat) (_hm : m < 65536) :
    (∀ s : SerialComm, (receiveRequest m s).1.request = m) ∧
    (∀ (name baud : String) (s : SerialComm),
      (handleStart toInt name baud s).1.request = s.request) ∧
    (∀ s : SerialComm, (handleStop s).1.request = s.request) ∧
    (∀ (s : SerialComm) (name baud : String) (script : Script) (c : Cycle) (rest : List Cycle),
      s.running = false → script.opened = true → script.cycles = c :: rest →
      (writes (run toInt (handleStart toInt name baud (receiveRequest m s).1).1 script).trace).head?
        = some (requestData m)) ∧
    (∀ (baud0 : Int) (name baud : String) (script : Script) (c : Cycle) (rest : List Cycle),
      script.opened = true → script.cycles = c :: rest →
      (writes (run toInt (handleStart toInt name baud (SerialComm.init baud0)).1 script).trace).head?
        = some [0xba, 0x00, 0x00, 0xb9]) := by
  have hfirst := run_first_write toInt
  refine ⟨?_, ?_, ?_, ?_, ?_⟩
  · intro s
    by_cases h : s.running = true <;> simp [receiveRequest, h]
  · intro name baud s
    by_cases h : s.running = true <;> simp [handleStart, h]
  · intro s
    by_cases h : s.running = true <;> simp [handleStop, h]
  · intro s name baud script c rest hidle ho hc
    have hx : handleStart toInt name baud (receiveRequest m s).1 =
        ({ portName := name, baudRate := toInt baud, quit := false, request := m,
           running := true }, [Event.start]) := by
      simp [handleStart, receiveRequest, hidle]
    rw [hx]
    exact hfirst _ script c rest rfl ho hc
  · intro baud0 name baud script c rest ho hc
    have hx : handleStart toInt name baud (SerialComm.init baud0) =
        ({ portName := name, baudRate := toInt baud, quit := false, request := 0,
           running := true }, [Event.start]) := by
      simp [handleStart, SerialComm.init]
    rw [hx]
    have h0 := hfirst ⟨name, toInt baud, false, 0, true⟩ script c rest rfl ho hc
    simpa [requestData, streamU8, streamU16, CMD_WRITE_OUTPUT, CMD_READ_INPUT] using h0

/-- Witness of C10: the mask `0x0001` is submitted to a fresh idle worker, then the session is
started on COM7 at 9600 baud and the port opens; the first frame carries `0x0001`. -/
theorem C10_buffered_request_witness :
    (writes (run toInt0
      (handleStart toInt0 "COM7" "9600" (receiveRequest 0x0001 (SerialComm.init 0)).1).1
      scenarioScript).trace).head? = some [0xba, 0x00, 0x01, 0xb9] :=
  (C10_buffered_request toInt0 0x0001 (by decide)).2.2.2.1 (SerialComm.init 0) "COM7" "9600"
    scenarioScript
    { written := true, ready := true, first := [0x00, 0x02], more := [], calls := [Call.stop] }
    [] rfl rfl rfl

/-- C11: let `handleStop` be handled while the thread runs and the worker is blocked in its
wait after having emitted a response, whatever slots are handled before and after it during
that wait and whatever the rest of the script holds.  Then `quit` is set when the worker
resumes, the loop is left through the stop exit, and the whole trace of the loop is that of
this one iteration: it ends with the response and the wait, it holds the single frame written
before, and no error; so nothing at all is written or emitted after the stop. -/
theorem C11_clean_stop (toInt : String → Int) (s : SerialComm) (c : Cycle) (rest : List Cycle)
    (before after : List Call)
    (hrun : s.running = true) (hq : s.quit = false)
    (hw : c.written = true) (hr : c.ready = true)
    (hn : (c.first ++ c.more.flatten).length = 2)
    (hcalls : c.calls = before ++ Call.stop :: after) :
    (handleAll toInt c.calls s).1.quit = true ∧
    loop toInt (c :: rest) s =
      { trace := (cycle toInt s c).1, exit := some Exit.stopped,
        state := (handleAll toInt c.calls s).1 } ∧
    (∃ io, (loop toInt (c :: rest) s).trace =
        io ++ [Event.response (readU16 (c.first ++ c.more.flatten)), Event.wait] ∧
      writes io = [requestData s.request] ∧ signals io = []) ∧
    writes (loop toInt (c :: rest) s).trace = [requestData s.request] ∧
    signals (loop toInt (c :: rest) s).trace =
      [Event.response (readU16 (c.first ++ c.more.flatten))] ∧
    (∀ script : Script, script.opened = true → script.cycles = c :: rest →
      (run toInt s script).exit = some Exit.stopped ∧
      (run toInt s script).trace =
        Event.openPort s.portName s.baudRate :: (cycle toInt s c).1) := by
  obtain ⟨hquit, hwake⟩ := handleAll_stop toInt before after s hrun
  rw [← hcalls] at hquit hwake
  have hst : (cycle toInt s c).2 = Step.next (handleAll toInt c.calls s).1 := by
    rw [cycle_ok toInt s c hw hr hn]
    simp [hwake]
  have hloop : loop toInt (c :: rest) s =
      { trace := (cycle toInt s c).1, exit := some Exit.stopped,
        state := (handleAll toInt c.calls s).1 } := by
    rw [loop_cons_next toInt s _ c rest hq hst, loop_quit toInt rest _ hquit]
    simp
  refine ⟨hquit, hloop, ?_, ?_, ?_, ?_⟩
  · rw [hloop]
    refine ⟨[Event.write (requestData s.request), Event.waitForBytesWritten TIME_LIMIT_MS,
      Event.waitForReadyRead TIME_LIMIT_MS, Event.readAll] ++ (drain c.more c.first).2, ?_, ?_, ?_⟩
    · rw [cycle_ok toInt s c hw hr hn]
    · simp [writes, writes_append, drain_writes]
    · simp [signals, signals_append, drain_signals]
  · rw [hloop]
    exact (cycle_writes toInt s c).1
  · rw [hloop, cycle_ok toInt s c hw hr hn]
    simp [signals, signals_append, drain_signals]
  · intro script ho hc
    simp [run, ho, hc, hloop]

/-- Witness of C11: after the response to the first frame, `receiveRequest(0x0005)`,
`handleStop` and `receiveRequest(0x0007)` are handled while the worker waits, and the script
offers a further successful iteration; the trace ends with the wait and holds one frame. -/
theorem C11_clean_stop_witness :
    loop toInt0
      [{ written := true, ready := true, first := [0x00, 0x02], more := [],
         calls := [Call.request 0x0005, Call.stop, Call.request 0x0007] },
       { written := true, ready := true, first := [0x00, 0x03], more := [], calls := [] }]
      scenarioState =
      { trace := [Event.write [0xba, 0x00, 0x01, 0xb9], Event.waitForBytesWritten 100,
          Event.waitForReadyRead 100, Event.readAll, Event.waitForReadyRead 10,
          Event.response 0x0002, Event.wait],
        exit := some Exit.stopped,
        state := { portName := "COM7", baudRate := 9600, quit := true, request := 0x0007,
                   running := true } } :=
  (C11_clean_stop toInt0 scenarioState
    { written := true, ready := true, first := [0x00, 0x02], more := [],
      calls := [Call.request 0x0005, Call.stop, Call.request 0x0007] }
    [{ written := true, ready := true, first := [0x00, 0x03], more := [], calls := [] }]
    [Call.request 0x0005] [Call.request 0x0007] rfl rfl rfl rfl rfl rfl).2.1

/-- C12: for every window with `n ≤ 16` output buttons and every received input mask, whenever
`receiveResponse` emits, it emits exactly one `request`, whose mask is a 16-bit value with bit
`i` set if and only if `i < n` and button `i` of the sorted list is checked; what it emits is
the same for every other input mask; and it does emit when there is an output indicator for
every button and there are at most 32 input indicators (with equally many output indicators
and buttons the `request` is all that is sent out). -/
theorem C12_output_mask (w : MainWindow) (input : Nat) (hn : w.outputButtons.length ≤ 16) :
    (∀ (w2 : MainWindow) (es : List Emit),
      MainWindow.receiveResponse input w = some (w2, es) →
      ∃ output, requests es = [output] ∧ output < 65536 ∧
        ∀ i, (output.testBit i = true ↔
          i < w.outputButtons.length ∧ w.outputButtons.getD i false = true)) ∧
    (∀ (input2 : Nat) (w2 : MainWindow) (es : List Emit),
      MainWindow.receiveResponse input w = some (w2, es) →
      ∃ w3, MainWindow.receiveResponse input2 w = some (w3, es)) ∧
    (w.outputButtons.length ≤ w.outputIndicators.length → w.inputIndicators.length ≤ 32 →
      ∃ w2 es, MainWindow.receiveResponse input w = some (w2, es)) ∧
    (w.outputButtons.length = w.outputIndicators.length → w.inputIndicators.length ≤ 32 →
      ∃ w2 output, MainWindow.receiveResponse input w = some (w2, [Emit.request output])) := by
  have hsome : w.outputButtons.length ≤ w.outputIndicators.length →
      w.inputIndicators.length ≤ 32 →
      ∃ ins r, inputLoop input 0 w.inputIndicators = some ins ∧
        outputLoop 0 0 w.outputButtons w.outputIndicators = some r := by
    intro hlen hin
    obtain ⟨ins, hins⟩ := inputLoop_some input w.inputIndicators 0 (by omega)
    obtain ⟨r, hr⟩ := outputLoop_some w.outputButtons w.outputIndicators 0 0 hlen (by omega)
    exact ⟨ins, r, hins, hr⟩
  refine ⟨?_, ?_, ?_, ?_⟩
  · intro w2 es h
    obtain ⟨ins, r, _, hout, hes⟩ := receiveResponse_some input w w2 es h
    obtain ⟨hlt, hbits⟩ := outputLoop_bits w.outputButtons w.outputIndicators 0 0 r hout
      (by omega) (by decide)
    refine ⟨r.1, ?_, ?_, ?_⟩
    · rw [hes]
      by_cases hne : w.outputButtons.length ≠ w.outputIndicators.length <;>
        simp [hne, requests]
    · have hle : 2 ^ (0 + w.outputButtons.length) ≤ 2 ^ 16 :=
        Nat.pow_le_pow_right (by decide) (by omega)
      exact Nat.lt_of_lt_of_le hlt (by simpa using hle)
    · intro i
      rw [hbits i]
      simp only [Nat.not_lt_zero, if_false, Nat.sub_zero]
      constructor
      · intro hi
        refine ⟨?_, hi⟩
        by_contra hge
        rw [List.getD_eq_default _ _ (by omega)] at hi
        exact Bool.false_ne_true hi
      · exact fun hi => hi.2
  · intro input2 w2 es h
    obtain ⟨ins, r, hin, hout, hes⟩ := receiveResponse_some input w w2 es h
    obtain ⟨ins2, hin2⟩ := inputLoop_indep input input2 w.inputIndicators 0 ins hin
    refine ⟨{ w with outputIndicators := r.2, inputIndicators := ins2 }, ?_⟩
    simp only [MainWindow.receiveResponse, hin2, hout, hes]
  · intro hlen hin
    obtain ⟨ins, r, hins, hr⟩ := hsome hlen hin
    exact ⟨{ w with outputIndicators := r.2, inputIndicators := ins },
      (if w.outputButtons.length ≠ w.outputIndicators.length
        then [Emit.appExit EXIT_FAILURE] else []) ++ [Emit.request r.1],
      by simp only [MainWindow.receiveResponse, hins, hr]⟩
  · intro hlen hin
    obtain ⟨ins, r, hins, hr⟩ := hsome (by omega) hin
    refine ⟨{ w with outputIndicators := r.2, inputIndicators := ins }, r.1, ?_⟩
    simp [MainWindow.receiveResponse, hins, hr, hlen]

/-- Witness of C12: in the sample window (buttons 0 and 2 checked) the input mask `0x0002`
gives the single request `0x0005`. -/
theorem C12_output_mask_witness :
    sampleWindow.outputButtons.length ≤ 16 ∧
    MainWindow.receiveResponse 0x0002 sampleWindow =
      some ({ outputButtons := [true, false, true],
              outputIndicators := [TURNED_ON_STYLE, TURNED_OFF_STYLE, TURNED_ON_STYLE],
              inputIndicators := [TURNED_OFF_STYLE, TURNED_ON_STYLE] }, [Emit.request 0x0005]) ∧
    ∃ output, requests [Emit.request 0x0005] = [output] ∧ output < 65536 ∧
      ∀ i, (output.testBit i = true ↔
        i < sampleWindow.outputButtons.length ∧
          sampleWindow.outputButtons.getD i false = true) :=
  ⟨by decide, by decide,
    (C12_output_mask sampleWindow 0x0002 (by decide)).1
      { outputButtons := [true, false, true],
        outputIndicators := [TURNED_ON_STYLE, TURNED_OFF_STYLE, TURNED_ON_STYLE],
        inputIndicators := [TURNED_OFF_STYLE, TURNED_ON_STYLE] }
      [Emit.request 0x0005] (by decide)⟩

end FakeBORIS
